import Mathlib

/-!
Verification of the `clibind` package (files `bind.go`, `flags.go`): a
reflection-driven adapter that derives command-line flag definitions from a
struct's field tags (`FlagsFromStruct` / `genFlagsForStruct`) and populates a
struct from parsed flag values (`Bind` / `bindStruct` / `setFieldValue` /
`setSliceField`).

Shallow embedding notes:
* Go struct types are modelled by `GoType`; a struct's fields carry their tag
  metadata in `Tags`.  Pointer indirection (`unreferenceType`,
  `unreferenceValue` and the pointer branches of `castAndSetInt` /
  `castAndSetUint`) is not modelled: the type model has no pointer
  constructor, so `unreferenceType` is the identity.  Integer and unsigned
  kinds carry their width (`IntW`: 8/16/32/64 bits; Go `int`, `uint` and
  `uintptr` are the 64-bit case on the supported platforms), and the
  `castAndSetInt`/`castAndSetUint` stores apply Go's conversion — a
  two's-complement wrap to the field's width (`wrapInt`/`wrapUint`).
  `float32` fields are outside the type model (`tFloat` is `float64` only):
  `SetFloat` on a `float32` field narrows with IEEE rounding, which this
  development does not model.
* The external CLI library (`urfave/cli/v3`) is modelled by `FlagSource`, a
  record of the typed accessors the source uses (`IsSet`, `String`, `Bool`,
  `Int64`, `Uint64`, `Float64`, `StringSlice`).
* Go standard-library parsers (`strconv.ParseBool/Int/Uint/Float`,
  `time.ParseDuration`, `time.Parse`, `uuid.FromString`) are external
  dependencies; they are modelled by executable Lean functions faithful on
  the fragments exercised here, with the modelled fragment stated in each
  doc comment.  Go `float64` is modelled by `Rat`: values are kept exactly
  (binary rounding and NaN are not modelled), while `strconv.ParseFloat`'s
  overflow error (the decimal rounds to ±Inf) is modelled exactly.
-/

namespace Clibind

/-- Tag metadata of one Go struct field: the field identifier, its
export/embedding status, and the raw values of the `cli`, `cliDefault`,
`cliUsage`, `cliTimeLayout` and `cliPrefix` struct tags (empty string when
the tag is absent, as returned by `reflect.StructTag.Get`). -/
structure Tags where
  goName : String
  exported : Bool
  anonymous : Bool
  cli : String
  dflt : String
  usage : String
  timeLayout : String
  prefixTag : String
deriving DecidableEq

/-- Width of a Go integer kind in bits.  Go `int`, `uint` and `uintptr` are
64-bit on the platforms this package targets and are modelled as `w64`. -/
inductive IntW where
  | w8 | w16 | w32 | w64
deriving DecidableEq

/-- The bit count of a width. -/
def IntW.bits : IntW → Nat
  | .w8 => 8
  | .w16 => 16
  | .w32 => 32
  | .w64 => 64

/-- Go's signed integer conversion `int<w>(x)` for an `int64` argument, as
performed by `reflect.Value.SetInt` inside `castAndSetInt` (helper file
lines 220-233): keep the low `w` bits and decode them as two's complement.
At `w64` this is the identity on the `int64` range (and reduces any
unbounded model integer into that range, since the real accessor only ever
produces an `int64`). -/
def wrapInt (w : IntW) (v : Int) : Int :=
  let m : Int := 2 ^ w.bits
  let r := v % m
  if r < 2 ^ (w.bits - 1) then r else r - m

/-- Go's unsigned integer conversion `uint<w>(x)` for a `uint64` argument,
as performed by `reflect.Value.SetUint` inside `castAndSetUint`. -/
def wrapUint (w : IntW) (v : Nat) : Nat :=
  v % 2 ^ w.bits

/-- Go types reachable by the package's dispatch: the scalar kinds it
recognises (bool, signed int and unsigned int of each width, float64,
string, `time.Duration`, `time.Time`, `uuid.UUID`), slices, and structs (a
list of tagged fields).  `float32` is outside the model (its `SetFloat`
store narrows with IEEE rounding). -/
inductive GoType where
  | tBool
  | tInt (w : IntW)
  | tUint (w : IntW)
  | tFloat
  | tStr | tDur | tTime | tUuid
  | tSlice (elem : GoType)
  | tStruct (fields : List (Tags × GoType))

/-- A Go struct field: its tag metadata and its type. -/
abbrev GoField := Tags × GoType

/-- Model of `time.Time` restricted to the components the modelled layouts
parse: calendar date, clock time, and zone offset in minutes. -/
structure GoTime where
  year : Nat
  month : Nat
  day : Nat
  hour : Nat
  minute : Nat
  second : Nat
  offsetMin : Int
deriving DecidableEq

/-- The zero `time.Time`: January 1, year 1, 00:00:00 UTC. -/
def zeroGoTime : GoTime := ⟨1, 1, 1, 0, 0, 0, 0⟩

/-- Model of `uuid.UUID`: its 16 bytes. -/
abbrev GoUUID := List Nat

/-- `uuid.Nil`, the zero UUID. -/
def uuidNil : GoUUID := List.replicate 16 0

/-- Runtime Go values of the modelled types.  Durations are nanosecond
counts; slices and structs hold their element/field values in order. -/
inductive GoValue where
  | vBool (b : Bool)
  | vInt (i : Int)
  | vUint (u : Nat)
  | vFloat (q : Rat)
  | vStr (s : String)
  | vDur (ns : Int)
  | vTime (t : GoTime)
  | vUuid (u : GoUUID)
  | vSlice (elems : List GoValue)
  | vStruct (fields : List GoValue)

mutual
/-- The zero value of a Go type (`reflect.New(t).Elem()`).  The zero slice
models Go's nil slice; the distinction between a nil slice and an allocated
empty slice is collapsed. -/
def zeroValue : GoType → GoValue
  | .tBool => .vBool false
  | .tInt _ => .vInt 0
  | .tUint _ => .vUint 0
  | .tFloat => .vFloat 0
  | .tStr => .vStr ""
  | .tDur => .vDur 0
  | .tTime => .vTime zeroGoTime
  | .tUuid => .vUuid uuidNil
  | .tSlice _ => .vSlice []
  | .tStruct fs => .vStruct (zeroFields fs)

/-- Zero values of a field list, in order. -/
def zeroFields : List (Tags × GoType) → List GoValue
  | [] => []
  | (_, ty) :: fs => zeroValue ty :: zeroFields fs
end

/-- `isStructLike` (flags.go helper file): true for struct types other than
`time.Time`; `time.Time` is scalar-like.  In the model `time.Time` is its
own constructor, so only `tStruct` is struct-like. -/
def isStructLike : GoType → Bool
  | .tStruct _ => true
  | _ => false

/-! ### Models of the external string parsers -/

/-- Numeric value of a list of decimal digit characters. -/
def natOfDigits (ds : List Char) : Nat :=
  ds.foldl (fun a c => a * 10 + (c.toNat - 48)) 0

/-- ASCII whitespace, the fragment of Unicode whitespace the inputs here
exercise (`strings.TrimSpace` trims full Unicode whitespace). -/
def isSpaceGo (c : Char) : Bool :=
  c = ' ' ∨ c = '\t' ∨ c = '\n' ∨ c = '\r' ∨ c = '\x0b' ∨ c = '\x0c'

/-- Model of `strings.TrimSpace` (list-based so that concrete instances
reduce inside the kernel). -/
def trimGo (s : String) : String :=
  String.mk (((s.data.dropWhile isSpaceGo).reverse.dropWhile isSpaceGo).reverse)

/-- Model of `strings.Split(s, sep)` for a one-character separator. -/
def splitCharGo (sep : Char) : List Char → List (List Char)
  | [] => [[]]
  | c :: cs =>
    if c = sep then [] :: splitCharGo sep cs
    else
      match splitCharGo sep cs with
      | [] => [[c]]
      | g :: gs => (c :: g) :: gs

/-- Model of `strings.ToLower` on ASCII (the Go field names exercised are
ASCII identifiers). -/
def toLowerGo (s : String) : String :=
  String.mk (s.data.map fun c =>
    if 'A' ≤ c ∧ c ≤ 'Z' then Char.ofNat (c.toNat + 32) else c)

/-- Model of `strconv.ParseBool`: the exact accepted spellings. -/
def parseBoolGo? : String → Option Bool
  | "1" | "t" | "T" | "true" | "TRUE" | "True" => some true
  | "0" | "f" | "F" | "false" | "FALSE" | "False" => some false
  | _ => none

/-- Base-10 signed integer syntax (optional sign, nonempty digits), with the
unbounded value; shared by the two `strconv.ParseInt` views below. -/
def intLit? (s : String) : Option Int :=
  match s.data with
  | [] => none
  | c :: cs =>
    let p : Bool × List Char :=
      if c = '-' then (true, cs) else if c = '+' then (false, cs) else (false, c :: cs)
    if p.2 ≠ [] ∧ p.2.all Char.isDigit then
      some (if p.1 then -(natOfDigits p.2 : Int) else (natOfDigits p.2 : Int))
    else none

/-- Model of `strconv.ParseInt(s, 10, 64)` as used at bind time (the error is
checked): `none` on either a syntax error or a range error. -/
def parseInt64? (s : String) : Option Int :=
  (intLit? s).bind fun v =>
    if -(2 ^ 63) ≤ v ∧ v ≤ 2 ^ 63 - 1 then some v else none

/-- Model of `f, _ := strconv.ParseInt(s, 10, 64)` as used at generation time
(the error is discarded): a syntax error yields 0, a range error yields the
clamped boundary value that Go returns alongside the error. -/
def parseInt64D (s : String) : Int :=
  match intLit? s with
  | none => 0
  | some v => if v < -(2 ^ 63) then -(2 ^ 63) else if v > 2 ^ 63 - 1 then 2 ^ 63 - 1 else v

/-- Base-10 unsigned integer syntax (nonempty digits, no sign permitted),
with the unbounded value; `strconv.ParseUint` rejects any sign prefix. -/
def uintLit? (s : String) : Option Nat :=
  if s.data ≠ [] ∧ s.data.all Char.isDigit then some (natOfDigits s.data) else none

/-- Model of `strconv.ParseUint(s, 10, 64)` with the error checked. -/
def parseUint64? (s : String) : Option Nat :=
  (uintLit? s).bind fun v => if v ≤ 2 ^ 64 - 1 then some v else none

/-- Model of `f, _ := strconv.ParseUint(s, 10, 64)` with the error
discarded: syntax error yields 0, range error yields the clamp. -/
def parseUint64D (s : String) : Nat :=
  match uintLit? s with
  | none => 0
  | some v => if v > 2 ^ 64 - 1 then 2 ^ 64 - 1 else v

/-- The plain decimal float syntax accepted by `strconv.ParseFloat`
(optional sign, digits with optional fraction, optional decimal exponent),
read exactly into `Rat`.  Hex floats, "inf"/"nan" spellings and digit
underscores are outside the modelled fragment. -/
def floatLit? (s : String) : Option Rat :=
  match s.data with
  | [] => none
  | c :: cs =>
    let p : Bool × List Char :=
      if c = '-' then (true, cs) else if c = '+' then (false, cs) else (false, c :: cs)
    let d1 := p.2.takeWhile Char.isDigit
    let r1 := p.2.dropWhile Char.isDigit
    let fr : List Char × List Char :=
      match r1 with
      | '.' :: t => (t.takeWhile Char.isDigit, t.dropWhile Char.isDigit)
      | _ => ([], r1)
    if d1 = [] ∧ fr.1 = [] then none
    else
      let k := fr.1.length
      let mantN : Int := (natOfDigits d1 * 10 ^ k + natOfDigits fr.1 : Nat)
      let signed : Int → Int := fun v => if p.1 then -v else v
      match fr.2 with
      | [] => some (mkRat (signed mantN) (10 ^ k))
      | e :: t =>
        if e = 'e' ∨ e = 'E' then
          let ep : Bool × List Char :=
            match t with
            | '-' :: t2 => (true, t2)
            | '+' :: t2 => (false, t2)
            | _ => (false, t)
          if ep.2 ≠ [] ∧ ep.2.all Char.isDigit then
            let ex := natOfDigits ep.2
            some (if ep.1 then mkRat (signed mantN) (10 ^ k * 10 ^ ex)
              else mkRat (signed mantN * 10 ^ ex) (10 ^ k))
          else none
        else none

/-- The numeral (2^54 − 1)·2^970, written out so that concrete overflow
checks reduce without a 970-deep power computation; `f64OverflowLit_eq`
ties it to the formula. -/
def f64OverflowLit : Int := 179769313486231580793728971405303415079934132710037826936173778980444968292764750946649017977587207096330286416692887910946555547851940402630657488671505820681908902000708383676273854845817711531764475730270069855571366959622842914819860834936475292719074168444365510704342711559699508093042880177904174497792

/-- Whether a decimal value overflows float64: round-to-nearest-even sends
it to ±Inf exactly when |q| ≥ (2^54 − 1)·2^970, the midpoint between the
largest finite float64, (2^53 − 1)·2^971, and 2^1024 (the tie itself rounds
to the even 2^1024).  Stated on the numerator and positive denominator so
that concrete instances reduce inside the kernel: |q| ≥ b ↔ |num| ≥ b·den. -/
def f64Overflows (q : Rat) : Bool :=
  f64OverflowLit * (q.den : Int) ≤ q.num ∨ q.num ≤ -(f64OverflowLit * (q.den : Int))

/-- Model of `strconv.ParseFloat(s, 64)` as used at bind time (the error is
checked): `none` on a syntax error, and on the range error Go reports when
the decimal value rounds to ±Inf; underflow is not an error (it rounds
towards zero silently).  A successful value is kept exactly in `Rat`;
rounding to binary float64 is not modelled. -/
def parseFloatQ? (s : String) : Option Rat :=
  (floatLit? s).bind fun q => if f64Overflows q then none else some q

/-- Model of `f, _ := strconv.ParseFloat(def, 64)` with the error discarded:
a syntax error yields 0.  (On a range error Go keeps the returned ±Inf,
which `Rat` cannot represent; the exact value is kept instead, an
idealisation that only affects overflowing float defaults.) -/
def parseFloatQD (s : String) : Rat :=
  (floatLit? s).getD 0

/-- Nanoseconds per unit, for the ASCII unit names of `time.ParseDuration`
(the Unicode spellings of microseconds are not modelled). -/
def unitNs : String → Option Int
  | "ns" => some 1
  | "us" => some 1000
  | "ms" => some 1000000
  | "s" => some 1000000000
  | "m" => some 60000000000
  | "h" => some 3600000000000
  | _ => none

/-- One-or-more duration components `digits[.digits]unit`, summed in
nanoseconds; the fuel bounds the recursion and exceeds the input length at
every call site.  The fractional part is truncated by exact integer
division (Go computes it in float64 arithmetic; the rare sub-nanosecond
rounding difference is not modelled), and overflow checking is omitted. -/
def parseDurComps : Nat → List Char → Option Int
  | 0, _ => none
  | _, [] => some 0
  | Nat.succ fuel, c :: cs =>
    let ip := (c :: cs).takeWhile Char.isDigit
    let r1 := (c :: cs).dropWhile Char.isDigit
    let fr : List Char × List Char :=
      match r1 with
      | '.' :: t => (t.takeWhile Char.isDigit, t.dropWhile Char.isDigit)
      | _ => ([], r1)
    if ip = [] ∧ fr.1 = [] then none
    else
      let u := fr.2.takeWhile fun d => ¬ d.isDigit ∧ d ≠ '.'
      let r3 := fr.2.dropWhile fun d => ¬ d.isDigit ∧ d ≠ '.'
      match unitNs (String.mk u) with
      | none => none
      | some unit =>
        let comp : Int :=
          (natOfDigits ip : Int) * unit +
            (((natOfDigits fr.1) * unit.toNat / 10 ^ fr.1.length : Nat) : Int)
        match parseDurComps fuel r3 with
        | none => none
        | some rest => some (comp + rest)

/-- Model of `time.ParseDuration`: optional sign, the special case `"0"`,
otherwise one or more `digits[.digits]unit` components. -/
def parseDurationGo? (s : String) : Option Int :=
  match s.data with
  | [] => none
  | c :: cs =>
    let p : Bool × List Char :=
      if c = '-' then (true, cs) else if c = '+' then (false, cs) else (false, c :: cs)
    if p.2 = ['0'] then some 0
    else if p.2 = [] then none
    else
      match parseDurComps (p.2.length + 1) p.2 with
      | none => none
      | some total => some (if p.1 then -total else total)

/-- Value of a pair of decimal digit characters, or `none`. -/
def num2? (a b : Char) : Option Nat :=
  if a.isDigit ∧ b.isDigit then some ((a.toNat - 48) * 10 + (b.toNat - 48)) else none

/-- Value of four decimal digit characters, or `none`. -/
def num4? (a b c d : Char) : Option Nat :=
  match num2? a b, num2? c d with
  | some x, some y => some (x * 100 + y)
  | _, _ => none

/-- Gregorian leap-year rule. -/
def isLeap (y : Nat) : Bool := y % 4 = 0 ∧ (y % 100 ≠ 0 ∨ y % 400 = 0)

/-- Days in a month, with the leap-year rule for February. -/
def daysInMonth (y m : Nat) : Nat :=
  if m = 2 then (if isLeap y then 29 else 28)
  else if m = 4 ∨ m = 6 ∨ m = 9 ∨ m = 11 then 30 else 31

/-- The default time layout of the package (`defaultTimeFmt = time.RFC3339`). -/
def rfc3339Layout : String := "2006-01-02T15:04:05Z07:00"

/-- Range checks shared by the layout parsers. -/
def validDate (y mo d : Nat) : Bool :=
  1 ≤ mo ∧ mo ≤ 12 ∧ 1 ≤ d ∧ d ≤ daysInMonth y mo

/-- RFC3339 date-times `YYYY-MM-DDTHH:MM:SS` followed by `Z` or `±HH:MM`,
with calendar and clock range checks. -/
def parseRFC3339Go? (s : String) : Option GoTime :=
  match s.data with
  | y1 :: y2 :: y3 :: y4 :: '-' :: m1 :: m2 :: '-' :: d1 :: d2 ::
      'T' :: h1 :: h2 :: ':' :: n1 :: n2 :: ':' :: s1 :: s2 :: zone =>
    match num4? y1 y2 y3 y4, num2? m1 m2, num2? d1 d2,
        num2? h1 h2, num2? n1 n2, num2? s1 s2 with
    | some y, some mo, some d, some h, some mi, some se =>
      if validDate y mo d ∧ h ≤ 23 ∧ mi ≤ 59 ∧ se ≤ 59 then
        match zone with
        | ['Z'] => some ⟨y, mo, d, h, mi, se, 0⟩
        | [sg, o1, o2, ':', p1, p2] =>
          match num2? o1 o2, num2? p1 p2 with
          | some oh, some om =>
            if (sg = '+' ∨ sg = '-') ∧ oh ≤ 23 ∧ om ≤ 59 then
              let off : Int := (oh * 60 + om : Nat)
              some ⟨y, mo, d, h, mi, se, if sg = '-' then -off else off⟩
            else none
          | _, _ => none
        | _ => none
      else none
    | _, _, _, _, _, _ => none
  | _ => none

/-- Date-only values `YYYY-MM-DD`; unspecified components are zero and the
location defaults to UTC, as in `time.Parse`. -/
def parseDateOnlyGo? (s : String) : Option GoTime :=
  match s.data with
  | [y1, y2, y3, y4, '-', m1, m2, '-', d1, d2] =>
    match num4? y1 y2 y3 y4, num2? m1 m2, num2? d1 d2 with
    | some y, some mo, some d =>
      if validDate y mo d then some ⟨y, mo, d, 0, 0, 0, 0⟩ else none
    | _, _, _ => none
  | _ => none

/-- Model of `time.Parse(layout, s)` covering the layouts exercised by this
development: the package default `time.RFC3339` and the date-only layout
`"2006-01-02"`.  Other layout strings are outside the modelled fragment and
yield `none`. -/
def parseTimeGo? (layout s : String) : Option GoTime :=
  if layout = rfc3339Layout then parseRFC3339Go? s
  else if layout = "2006-01-02" then parseDateOnlyGo? s
  else none

/-- Value of a hexadecimal digit character, or `none`. -/
def hexVal? (c : Char) : Option Nat :=
  if c.isDigit then some (c.toNat - 48)
  else if 'a' ≤ c ∧ c ≤ 'f' then some (c.toNat - 87)
  else if 'A' ≤ c ∧ c ≤ 'F' then some (c.toNat - 55)
  else none

/-- Bytes of an even-length hexadecimal character list, or `none`. -/
def hexPairs : List Char → Option (List Nat)
  | [] => some []
  | a :: b :: rest =>
    match hexVal? a, hexVal? b, hexPairs rest with
    | some x, some y, some l => some ((x * 16 + y) :: l)
    | _, _, _ => none
  | _ => none

/-- Model of `uuid.FromString` on the canonical `8-4-4-4-12` hyphenated form
(the gofrs library also accepts braced, URN and unhyphenated spellings,
which are outside the modelled fragment). -/
def parseUUIDGo? (s : String) : Option GoUUID :=
  match splitCharGo '-' s.data with
  | [a, b, c, d, e] =>
    if a.length = 8 ∧ b.length = 4 ∧ c.length = 4 ∧ d.length = 4 ∧ e.length = 12 then
      hexPairs (a ++ b ++ c ++ d ++ e)
    else none
  | _ => none

/-! ### The metadata interpreter (`parseNamesWithOptions`, `splitCSV`) -/

/-- `splitCSV` (helper file): split on commas and trim each part; the empty
string yields no parts. -/
def splitCSV (s : String) : List String :=
  if s = "" then [] else (splitCharGo ',' s.data).map fun l => trimGo (String.mk l)

/-- `parseNamesWithOptions` (helper file): primary name, aliases and the
`omitempty` marker from a `cli` tag value. -/
def parseNamesWithOptions (tag : String) : String × List String × Bool :=
  let tg := trimGo tag
  if tg = "" then ("", [], false)
  else
    match splitCSV tg with
    | [] => ("", [], false)
    | p0 :: rest =>
      if p0 = "" then ("", [], false)
      else
        let acc := rest.foldl
          (fun (acc : List String × Bool) p =>
            if trimGo p = "omitempty" then (acc.1, true) else (acc.1 ++ [trimGo p], acc.2))
          ([], false)
        (p0, acc.1, acc.2)

/-- The effective flag name of a field: the accumulated prefix, then the
tag's primary name or the lower-cased Go field name when the tag gives
none.  Both `genFlagsForStruct` (flags.go lines 40-51) and `bindStruct`
(bind.go lines 80-84) compute exactly this. -/
def resolvedName (pfx : String) (tags : Tags) : String :=
  let n := (parseNamesWithOptions tags.cli).1
  pfx ++ (if n = "" then toLowerGo tags.goName else n)

/-- The `omitempty` marker of a field's `cli` tag. -/
def omitEmptyOf (tags : Tags) : Bool :=
  (parseNamesWithOptions tags.cli).2.2

/-! ### The flag generator (`FlagsFromStruct`, `genFlagsForStruct`) -/

/-- The flag descriptors the generator emits, one constructor per
`urfave/cli/v3` flag type used by `genFlagsForStruct` (`BoolFlag` carries no
`DefaultText` in the source, hence no such field here). -/
inductive FlagDef where
  | stringF (name : String) (aliases : List String) (usage : String)
      (value : String) (defaultText : String) (required : Bool)
  | boolF (name : String) (aliases : List String) (usage : String)
      (value : Bool) (required : Bool)
  | int64F (name : String) (aliases : List String) (usage : String)
      (value : Int) (defaultText : String) (required : Bool)
  | uint64F (name : String) (aliases : List String) (usage : String)
      (value : Nat) (defaultText : String) (required : Bool)
  | float64F (name : String) (aliases : List String) (usage : String)
      (value : Rat) (defaultText : String) (required : Bool)
  | stringSliceF (name : String) (aliases : List String) (usage : String)
      (value : List String) (defaultText : String) (required : Bool)
deriving DecidableEq

/-- The `Name` field of a flag descriptor. -/
def FlagDef.name : FlagDef → String
  | .stringF n .. | .boolF n .. | .int64F n .. | .uint64F n ..
  | .float64F n .. | .stringSliceF n .. => n

/-- The `Required` field of a flag descriptor. -/
def FlagDef.required : FlagDef → Bool
  | .stringF _ _ _ _ _ r | .boolF _ _ _ _ r | .int64F _ _ _ _ _ r
  | .uint64F _ _ _ _ _ r | .float64F _ _ _ _ _ r | .stringSliceF _ _ _ _ _ r => r

/-- The flag emitted for one non-struct field (the switch of
`genFlagsForStruct`, flags.go lines 58-155).  The source tests
`ft == reflect.TypeOf(time.Second)` before the integer-kind test because a
duration's reflect kind is `Int64`; the model's constructors are disjoint so
the dispatch is written directly.  An alias is prefixed when its byte length
exceeds 1 (`len(aliases[i]) > 1`).  Malformed defaults are parsed with the
error discarded (`f, _ := strconv.Parse...`). -/
def leafFlag (tags : Tags) (ty : GoType) (pfx : String) : List FlagDef :=
  let pr := parseNamesWithOptions tags.cli
  let nm := resolvedName pfx tags
  let aliases := pr.2.1.map fun a => if a.utf8ByteSize > 1 then pfx ++ a else a
  let usage := tags.usage
  let df := tags.dflt
  let req := !pr.2.2 && df == ""
  match ty with
  | .tDur => [.stringF nm aliases usage df df req]
  | .tBool => [.boolF nm aliases usage ((parseBoolGo? df).getD false) req]
  | .tInt _ => [.int64F nm aliases usage (parseInt64D df) df req]
  | .tUint _ => [.uint64F nm aliases usage (parseUint64D df) df req]
  | .tFloat => [.float64F nm aliases usage (parseFloatQD df) df req]
  | .tTime => [.stringF nm aliases usage df df req]
  | .tUuid => [.stringF nm aliases usage df df req]
  | .tStr => [.stringF nm aliases usage df df req]
  | .tSlice _ => [.stringSliceF nm aliases usage (splitCSV df) df req]
  | .tStruct _ => []

mutual
/-- The per-field step of `genFlagsForStruct` (flags.go lines 26-156):
unexported fields contribute nothing; a struct-like field with a
`cliPrefix` tag is recursed into under the extended prefix; an anonymous
struct-like field whose `cli` tag yields no primary name is flattened under
the unchanged prefix; any other struct-like field falls through the kind
switch and contributes nothing; non-struct fields emit one flag. -/
def genFlagsForField (tags : Tags) (ty : GoType) (pfx : String) : List FlagDef :=
  if tags.exported = false then []
  else
    match ty with
    | .tStruct subfs =>
      if tags.prefixTag ≠ "" then genFlagsForStruct subfs (pfx ++ tags.prefixTag)
      else if (parseNamesWithOptions tags.cli).1 = "" ∧ tags.anonymous then
        genFlagsForStruct subfs pfx
      else []
    | _ => leafFlag tags ty pfx

/-- `genFlagsForStruct`: the flags of all fields, in field order (the source
appends to `out` while iterating). -/
def genFlagsForStruct : List (Tags × GoType) → String → List FlagDef
  | [], _ => []
  | (tags, ty) :: fs, pfx => genFlagsForField tags ty pfx ++ genFlagsForStruct fs pfx
end

/-- `FlagsFromStruct`: generation entry point; a non-struct argument yields
no flags. -/
def FlagsFromStruct (ty : GoType) : List FlagDef :=
  match ty with
  | .tStruct fs => genFlagsForStruct fs ""
  | _ => []

/-! ### The value binder (`Bind`, `bindStruct`, `setFieldValue`, `setSliceField`) -/

/-- The flag-value source: the typed accessors of `*cli.Command` that the
binder consumes (`IsSet`, `String`, `Bool`, `Int64`, `Uint64`, `Float64`,
`StringSlice`), abstracted as functions of the flag name. -/
structure FlagSource where
  isSet : String → Bool
  getStr : String → String
  getBool : String → Bool
  getInt : String → Int
  getUint : String → Nat
  getFloat : String → Rat
  getStrSlice : String → List String

/-- The error values a bind can surface, mirroring the `fmt.Errorf` chains of
bind.go: leaf parse failures carry the offending input, `matrix` is the
nested-sequence rejection of `setSliceField`, `embeddedTag` the tagged
embedded struct rejection of `bindStruct`, and the two wrappers are
`"set field %s value: %w"` and `"bind substruct %s: %w"` with the Go field
name. -/
inductive BindErr where
  | pDuration (s : String)
  | pTime (s : String)
  | pUuid (s : String)
  | pInt (s : String)
  | pUint (s : String)
  | pFloat (s : String)
  | matrix (fieldName : String)
  | embeddedTag (fieldName : String)
  | wrapField (fieldName : String) (e : BindErr)
  | wrapSub (fieldName : String) (e : BindErr)
deriving DecidableEq

/-- The loop body of `setSliceField` for one raw element (bind.go lines
199-272): `ok none` models the `continue` that skips the append for empty
duration/timestamp/identifier strings; a malformed boolean element is
appended as `false` because the parse error is discarded
(`tr, _ := strconv.ParseBool(s)`); a parsed integer or unsigned element is
stored through `castAndSetInt`/`castAndSetUint`, i.e. converted to the
element's width (a `[]int8` element `"300"` is appended as 44); an element
of slice type is the "matrix type" rejection; an element of any unhandled
type (a struct) falls through the switch and is appended as its zero
value. -/
def elemValue (tags : Tags) (t : GoType) (s : String) : Except BindErr (Option GoValue) :=
  match t with
  | .tDur =>
    if s = "" then .ok none
    else
      match parseDurationGo? s with
      | none => .error (.pDuration s)
      | some d => .ok (some (.vDur d))
  | .tBool => .ok (some (.vBool ((parseBoolGo? s).getD false)))
  | .tInt w =>
    match parseInt64? s with
    | none => .error (.pInt s)
    | some i => .ok (some (.vInt (wrapInt w i)))
  | .tUint w =>
    match parseUint64? s with
    | none => .error (.pUint s)
    | some u => .ok (some (.vUint (wrapUint w u)))
  | .tFloat =>
    match parseFloatQ? s with
    | none => .error (.pFloat s)
    | some q => .ok (some (.vFloat q))
  | .tTime =>
    let layout := if tags.timeLayout = "" then rfc3339Layout else tags.timeLayout
    if s = "" then .ok none
    else
      match parseTimeGo? layout s with
      | none => .error (.pTime s)
      | some t => .ok (some (.vTime t))
  | .tUuid =>
    if s = "" then .ok none
    else
      match parseUUIDGo? s with
      | none => .error (.pUuid s)
      | some u => .ok (some (.vUuid u))
  | .tStr => .ok (some (.vStr s))
  | .tSlice _ => .error (.matrix tags.goName)
  | .tStruct _ => .ok (some (zeroValue t))

/-- The element loop of `setSliceField`: elements are processed in order,
the first failing element aborts, kept elements are appended in input
order. -/
def sliceElems (tags : Tags) (t : GoType) : List String → Except BindErr (List GoValue)
  | [] => .ok []
  | s :: rest =>
    match elemValue tags t s with
    | .error e => .error e
    | .ok none => sliceElems tags t rest
    | .ok (some v) =>
      match sliceElems tags t rest with
      | .error e => .error e
      | .ok vs => .ok (v :: vs)

/-- `setSliceField` (bind.go lines 189-276): an empty repeated-string value
returns immediately without touching the field (which therefore stays the
zero slice); otherwise the parsed elements replace the field. -/
def setSliceField (src : FlagSource) (name : String) (tags : Tags) (elemTy : GoType) :
    Except BindErr GoValue :=
  let raw := src.getStrSlice name
  if raw = [] then .ok (.vSlice [])
  else
    match sliceElems tags elemTy raw with
    | .error e => .error e
    | .ok vs => .ok (.vSlice vs)

/-- `setFieldValue` (bind.go lines 121-186).  The source tests the duration
type before the integer kinds (a duration's kind is `Int64`); integer and
unsigned fields receive the `Int64`/`Uint64` accessor value through
`castAndSetInt`/`castAndSetUint`, whose `SetInt`/`SetUint` store performs
Go's conversion to the field's width (`wrapInt`/`wrapUint` — an `int8`
field supplied 300 stores 44); empty strings for
duration/timestamp/identifier fields yield the kind's zero value without
parsing; a field of unhandled type falls through the switch, is left
untouched (zero), and no error is raised. -/
def setFieldValue (src : FlagSource) (name : String) (tags : Tags) (ty : GoType) :
    Except BindErr GoValue :=
  match ty with
  | .tDur =>
    let s := src.getStr name
    if s = "" then .ok (.vDur 0)
    else
      match parseDurationGo? s with
      | none => .error (.pDuration s)
      | some d => .ok (.vDur d)
  | .tBool => .ok (.vBool (src.getBool name))
  | .tInt w => .ok (.vInt (wrapInt w (src.getInt name)))
  | .tUint w => .ok (.vUint (wrapUint w (src.getUint name)))
  | .tFloat => .ok (.vFloat (src.getFloat name))
  | .tTime =>
    let layout := if tags.timeLayout = "" then rfc3339Layout else tags.timeLayout
    let s := src.getStr name
    if s = "" then .ok (.vTime zeroGoTime)
    else
      match parseTimeGo? layout s with
      | none => .error (.pTime s)
      | some t => .ok (.vTime t)
  | .tUuid =>
    let s := src.getStr name
    if s = "" then .ok (.vUuid uuidNil)
    else
      match parseUUIDGo? s with
      | none => .error (.pUuid s)
      | some u => .ok (.vUuid u)
  | .tStr => .ok (.vStr (src.getStr name))
  | .tSlice t => setSliceField src name tags t
  | .tStruct _ => .ok (zeroValue ty)

mutual
/-- One iteration of the field loop of `bindStruct` (bind.go lines 73-113):
the bound value of the field together with the `defined` contribution.
Unexported fields are skipped (stay zero, contribute no `defined`).  A
struct-like field is recursed into: an anonymous one with a non-empty raw
`cli` tag is a configuration error, an anonymous one without it keeps the
parent prefix, and a named one extends the prefix by its `cliPrefix` tag
(possibly empty, in which case the parent prefix is kept unchanged); a `nil`
recursive result leaves the field zero and contributes no `defined`.  A leaf
field whose flag is unset and which is marked omit-empty is skipped;
otherwise `setFieldValue` runs and any error is wrapped with the Go field
name. -/
def bindField (src : FlagSource) (pfx : String) (tags : Tags) (ty : GoType) :
    Except BindErr (GoValue × Bool) :=
  if tags.exported = false then .ok (zeroValue ty, false)
  else
    match ty with
    | .tStruct subfs =>
      if tags.anonymous ∧ tags.cli ≠ "" then .error (.embeddedTag tags.goName)
      else
        match bindFields src (if tags.anonymous then pfx else pfx ++ tags.prefixTag) subfs with
        | .error e => .error (.wrapSub tags.goName e)
        | .ok (vs, d) =>
          if d then .ok (.vStruct vs, true) else .ok (.vStruct (zeroFields subfs), false)
    | _ =>
      if src.isSet (resolvedName pfx tags) = false ∧ omitEmptyOf tags then
        .ok (zeroValue ty, false)
      else
        match setFieldValue src (resolvedName pfx tags) tags ty with
        | .error e => .error (.wrapField tags.goName e)
        | .ok v => .ok (v, true)

/-- The field loop of `bindStruct` over a zero-initialised fresh value: field
values in order plus whether any field was assigned; the first failing field
aborts the whole loop. -/
def bindFields (src : FlagSource) (pfx : String) :
    List (Tags × GoType) → Except BindErr (List GoValue × Bool)
  | [] => .ok ([], false)
  | (tags, ty) :: fs =>
    match bindField src pfx tags ty with
    | .error e => .error e
    | .ok (v, d) =>
      match bindFields src pfx fs with
      | .error e => .error e
      | .ok (vs, d2) => .ok (v :: vs, d || d2)
end

/-- Outcome of `bindStruct`: the optional bound value (`nil` when no field
was assigned), an error, or a Go panic. -/
inductive StructBindResult where
  | success (v : Option GoValue)
  | failure (e : BindErr)
  | panicked (msg : String)

/-- `bindStruct` (bind.go lines 67-118): on a struct type, run the field
loop over a fresh zero value and return it only when at least one field was
assigned.  On any other type, `t.NumField()` panics — reachable only
through `Bind` with a non-nil pointer to a non-struct, since the recursive
calls always pass struct types. -/
def bindStruct (src : FlagSource) (ty : GoType) (pfx : String) : StructBindResult :=
  match ty with
  | .tStruct fs =>
    match bindFields src pfx fs with
    | .error e => .failure e
    | .ok (vs, d) => .success (if d then some (.vStruct vs) else none)
  | _ => .panicked "reflect: NumField of non-struct type"

/-- The destination argument of `Bind` as `reflect.ValueOf(dest)` sees it:
not a pointer at all, a nil pointer, or a non-nil pointer to a value of some
type (multi-level pointers are outside the model). -/
inductive Dest where
  | notPointer
  | nilPointer
  | pointer (ty : GoType) (val : GoValue)

/-- Observable outcome of a `Bind` call: success, the invalid-destination
error (`"Bind: dest must be a non-nil pointer to a struct"`), a bind error,
or a panic. -/
inductive BindResult where
  | ok
  | invalidDest
  | err (e : BindErr)
  | panicked (msg : String)
deriving DecidableEq

/-- `Bind` (bind.go lines 52-65): reject non-pointer and nil destinations;
otherwise bind into a fresh value and overwrite the destination only when
the bind assigned at least one field and returned no error. -/
def Bind (src : FlagSource) (dest : Dest) : BindResult × Dest :=
  match dest with
  | .notPointer => (.invalidDest, dest)
  | .nilPointer => (.invalidDest, dest)
  | .pointer ty cur =>
    match bindStruct src ty "" with
    | .failure e => (.err e, .pointer ty cur)
    | .panicked m => (.panicked m, .pointer ty cur)
    | .success none => (.ok, .pointer ty cur)
    | .success (some v) => (.ok, .pointer ty v)

/-! ### Spec-side definitions -/

/-- Scalar value kinds in the sense of the specification: bool, int, uint,
float, string, duration, timestamp, identifier. -/
def GoType.isScalar : GoType → Bool
  | .tBool | .tInt _ | .tUint _ | .tFloat | .tStr | .tDur | .tTime | .tUuid => true
  | _ => false

/-- Spec-side: the value the binder stores for a scalar field from the flag
source — the typed accessor's value for bool/float64/string flags, the
accessor's `int64`/`uint64` value converted to the field's width for
integer kinds (identity at 64 bits, a two's-complement wrap below), and the
parse of the supplied string (or the kind's zero for the empty string) for
the string-carried duration/timestamp/identifier flags; `none` when the
supplied string does not denote a value of the kind. -/
def storedValue (src : FlagSource) (pfx : String) (f : GoField) : Option GoValue :=
  let nm := resolvedName pfx f.1
  match f.2 with
  | .tBool => some (.vBool (src.getBool nm))
  | .tInt w => some (.vInt (wrapInt w (src.getInt nm)))
  | .tUint w => some (.vUint (wrapUint w (src.getUint nm)))
  | .tFloat => some (.vFloat (src.getFloat nm))
  | .tStr => some (.vStr (src.getStr nm))
  | .tDur =>
    let s := src.getStr nm
    if s = "" then some (.vDur 0) else (parseDurationGo? s).map .vDur
  | .tTime =>
    let layout := if f.1.timeLayout = "" then rfc3339Layout else f.1.timeLayout
    let s := src.getStr nm
    if s = "" then some (.vTime zeroGoTime) else (parseTimeGo? layout s).map .vTime
  | .tUuid =>
    let s := src.getStr nm
    if s = "" then some (.vUuid uuidNil) else (parseUUIDGo? s).map .vUuid
  | .tSlice _ => none
  | .tStruct _ => none

/-- Spec-side: the stored values for a whole field list, `none` when any
field's supplied string fails to denote a value of its kind. -/
def storedValues (src : FlagSource) (pfx : String) : List GoField → Option (List GoValue)
  | [] => some []
  | f :: fs =>
    match storedValue src pfx f, storedValues src pfx fs with
    | some v, some vs => some (v :: vs)
    | _, _ => none

/-- The alias list the generator attaches to a leaf field's flag: every
alias whose byte length exceeds 1 receives the accumulated prefix. -/
def aliasesOf (pfx : String) (tags : Tags) : List String :=
  ((parseNamesWithOptions tags.cli).2.1).map fun a =>
    if a.utf8ByteSize > 1 then pfx ++ a else a

/-- Spec-side: whether one raw sequence element fails the strict scalar
parse rule of its element kind.  Boolean and string elements never fail
(the boolean parse error is discarded by the code); empty
duration/timestamp/identifier strings do not fail (they are skipped). -/
def elemFails (tags : Tags) (t : GoType) (s : String) : Bool :=
  match t with
  | .tInt _ => (parseInt64? s).isNone
  | .tUint _ => (parseUint64? s).isNone
  | .tFloat => (parseFloatQ? s).isNone
  | .tDur => s ≠ "" && (parseDurationGo? s).isNone
  | .tTime =>
    let layout := if tags.timeLayout = "" then rfc3339Layout else tags.timeLayout
    s ≠ "" && (parseTimeGo? layout s).isNone
  | .tUuid => s ≠ "" && (parseUUIDGo? s).isNone
  | _ => false

/-- The element value actually kept by the slice loop for one raw element
(`none` both for skipped elements and under a failing element). -/
def elemKeep (tags : Tags) (t : GoType) (s : String) : Option GoValue :=
  match elemValue tags t s with
  | .ok o => o
  | .error _ => none

/-- Spec-side: whether the binder skips a field, leaving it at its zero
value — an unexported field, a leaf whose flag is unset while the field is
marked omit-empty, or a struct-like field whose recursive bind assigned
nothing. -/
def fieldSkipped (src : FlagSource) (pfx : String) (f : GoField) : Bool :=
  if f.1.exported = false then true
  else
    match f.2 with
    | .tStruct subfs =>
      match bindFields src (if f.1.anonymous then pfx else pfx ++ f.1.prefixTag) subfs with
      | .ok (_, false) => true
      | _ => false
    | _ => !src.isSet (resolvedName pfx f.1) && omitEmptyOf f.1

/-! ### Concrete fixtures for witnesses and counterexamples -/

/-- A flag source whose accessors all return zero values. -/
def src0 : FlagSource :=
  ⟨fun _ => false, fun _ => "", fun _ => false, fun _ => 0, fun _ => 0,
    fun _ => 0, fun _ => []⟩

/-- Tag metadata with only a `cli` name, for fixtures. -/
def mkTags (goName cli : String) : Tags := ⟨goName, true, false, cli, "", "", "", ""⟩

/-- Round-trip fixture: a struct with one field of every scalar kind. -/
def fsRT : List GoField :=
  [(mkTags "B" "b", .tBool), (mkTags "I" "i", .tInt .w64), (mkTags "U" "u", .tUint .w64),
   (mkTags "F" "f", .tFloat), (mkTags "S" "s", .tStr), (mkTags "D" "d", .tDur),
   (mkTags "W" "w", .tTime), (mkTags "Id" "id", .tUuid)]

/-- Round-trip fixture: a fully populated flag source for `fsRT`. -/
def srcRT : FlagSource where
  isSet := fun _ => true
  getStr := fun n =>
    if n = "s" then "hello"
    else if n = "d" then "250ms"
    else if n = "w" then "2025-01-02T15:04:05Z"
    else if n = "id" then "6ba7b810-9dad-11d1-80b4-00c04fd430c8"
    else ""
  getBool := fun _ => true
  getInt := fun _ => -7
  getUint := fun _ => 9
  getFloat := fun _ => mkRat 3 2
  getStrSlice := fun _ => []

/-- Round-trip fixture: the semantic values supplied by `srcRT`. -/
def wsRT : List GoValue :=
  [.vBool true, .vInt (-7), .vUint 9, .vFloat (mkRat 3 2), .vStr "hello",
   .vDur 250000000, .vTime ⟨2025, 1, 2, 15, 4, 5, 0⟩,
   .vUuid [0x6b, 0xa7, 0xb8, 0x10, 0x9d, 0xad, 0x11, 0xd1,
           0x80, 0xb4, 0x00, 0xc0, 0x4f, 0xd4, 0x30, 0xc8]]

/-- Collision fixture (claim about unprefixed nested fields): the nested
struct declares a member whose resolved flag name equals a parent flag. -/
def sub3 : List GoField := [(mkTags "Host" "host", .tStr)]

/-- Collision fixture: parent struct with a `host` flag and an unprefixed
named nested field. -/
def fs3 : List GoField :=
  [(mkTags "Host" "host", .tStr), (mkTags "Sub" "", .tStruct sub3)]

/-- Collision fixture: a source where only the `host` flag is set. -/
def src3 : FlagSource :=
  ⟨fun n => n = "host", fun n => if n = "host" then "x" else "",
    fun _ => false, fun _ => 0, fun _ => 0, fun _ => 0, fun _ => []⟩

/-- Abort fixture: a string field followed by a duration field. -/
def fs4 : List GoField := [(mkTags "A" "a", .tStr), (mkTags "D" "d", .tDur)]

/-- Abort fixture: the string flag holds a new value, the duration flag is
malformed. -/
def src4 : FlagSource :=
  ⟨fun _ => true,
    fun n => if n = "a" then "hello" else if n = "d" then "bad" else "",
    fun _ => false, fun _ => 0, fun _ => 0, fun _ => 0, fun _ => []⟩

/-- Nested-sequence fixture: a struct with one `[][]string` field. -/
def fsM : List GoField := [(mkTags "M" "m", .tSlice (.tSlice .tStr))]

/-- Lenient-boolean fixture: a source supplying one malformed boolean
sequence element. -/
def srcB : FlagSource :=
  ⟨fun _ => true, fun _ => "", fun _ => false, fun _ => 0, fun _ => 0,
    fun _ => 0, fun n => if n = "b" then ["xyz"] else []⟩

/-- Nested-sequence fixture: a source supplying one raw element for the
`m` flag. -/
def srcM1 : FlagSource :=
  ⟨fun _ => true, fun _ => "", fun _ => false, fun _ => 0, fun _ => 0,
    fun _ => 0, fun n => if n = "m" then ["a"] else []⟩

/-- Skip fixture: a string field plus an omit-empty int field. -/
def fs9 : List GoField :=
  [(mkTags "S" "s", .tStr), (mkTags "N" "n,omitempty", .tInt .w64)]

/-- Skip fixture: only the `s` flag is set. -/
def src9 : FlagSource :=
  ⟨fun n => n = "s", fun n => if n = "s" then "x" else "",
    fun _ => false, fun _ => 77, fun _ => 0, fun _ => 0, fun _ => []⟩

/-- Width-wrap fixture: a struct with a single `int8` field. -/
def fsW8 : List GoField := [(mkTags "N" "n", .tInt .w8)]

/-- Width-wrap fixture: a source whose `Int64` accessor returns 300. -/
def srcW8 : FlagSource :=
  ⟨fun _ => true, fun _ => "", fun _ => false, fun _ => 300, fun _ => 0,
    fun _ => 0, fun _ => []⟩

/-! ### Sanity checks of the embedding on concrete inputs -/

example : zeroValue (.tStruct [(⟨"A", true, false, "", "", "", "", ""⟩, .tInt .w64)]) =
    .vStruct [.vInt 0] := rfl
example : wrapInt .w8 300 = 44 := by decide
example : wrapInt .w16 (-70000) = -4464 := by decide
example : wrapInt .w64 (-7) = -7 := by decide
set_option maxRecDepth 4096 in
example : parseFloatQ? "1000000000000000000000000000000000000000000000000000000000000000000000000000000000000000000000000000000000000000000000000000000000000000000000000000000000000000000000000000000000000000000000000000000000000000000000000000000000000000000000000000000000000000000000000000000000000000000000000000000000000000000000" = none := by decide
example : parseFloatQ? "1.5" = some (mkRat 3 2) := by decide
example : elemValue (mkTags "N" "n") (.tInt .w8) "300" = .ok (some (.vInt 44)) := rfl
example :
    setFieldValue
      ⟨fun _ => true, fun _ => "", fun _ => false, fun _ => 0, fun _ => 0,
        fun _ => 0, fun n => if n = "i" then ["300", "4"] else []⟩
      "i" (mkTags "I" "i") (.tSlice (.tInt .w8)) = .ok (.vSlice [.vInt 44, .vInt 4]) := rfl
example : bindStruct srcW8 (.tStruct fsW8) "" = .success (some (.vStruct [.vInt 44])) := rfl
example : parseNamesWithOptions "name,n,omitempty" = ("name", ["n"], true) := by decide
example : parseDurationGo? "250ms" = some 250000000 := by decide
example : parseDurationGo? "1h30m" = some 5400000000000 := by decide
example : parseDurationGo? "xx" = none := by decide
example : parseTimeGo? rfc3339Layout "2025-01-02T15:04:05Z" =
    some ⟨2025, 1, 2, 15, 4, 5, 0⟩ := by decide
example : parseTimeGo? "2006-01-02" "not-a-date" = none := by decide
example : (parseUUIDGo? "6ba7b810-9dad-11d1-80b4-00c04fd430c8").isSome = true := by decide

example :
    FlagsFromStruct (.tStruct
      [(⟨"Name", true, false, "name,n", "guest", "", "", ""⟩, .tStr),
       (⟨"Count", true, false, "count", "3", "", "", ""⟩, .tInt .w64)]) =
    [.stringF "name" ["n"] "" "guest" "guest" false,
     .int64F "count" [] "" 3 "3" false] := by decide

example :
    FlagsFromStruct (.tStruct
      [(⟨"Sub", true, false, "", "", "", "", "sub-"⟩,
        .tStruct [(⟨"Host", true, false, "host", "", "", "", ""⟩, .tStr)])]) =
    [.stringF "sub-host" [] "" "" "" true] := by decide

example : bindStruct src9 (.tStruct fs9) "" =
    .success (some (.vStruct [.vStr "x", .vInt 0])) := rfl

/-! ### Helper lemmas -/

/-- The overflow numeral agrees with its defining formula. -/
lemma f64OverflowLit_eq : f64OverflowLit = (2 ^ 54 - 1) * 2 ^ 970 := by
  unfold f64OverflowLit
  norm_num

/-- The generator ignores unexported fields. -/
lemma genFlagsForField_unexported (tags : Tags) (ty : GoType) (pfx : String)
    (h : tags.exported = false) : genFlagsForField tags ty pfx = [] := by
  unfold genFlagsForField
  simp [h]

/-- The binder leaves unexported fields at their zero value and counts no
assignment for them. -/
lemma bindField_unexported (src : FlagSource) (pfx : String) (tags : Tags) (ty : GoType)
    (h : tags.exported = false) : bindField src pfx tags ty = .ok (zeroValue ty, false) := by
  unfold bindField
  simp [h]

/-- Unfolding of the field loop at a cons cell. -/
lemma bindFields_cons (src : FlagSource) (pfx : String) (tags : Tags) (ty : GoType)
    (fs : List GoField) :
    bindFields src pfx ((tags, ty) :: fs) =
      match bindField src pfx tags ty with
      | .error e => .error e
      | .ok (v, d) =>
        match bindFields src pfx fs with
        | .error e => .error e
        | .ok (vs, d2) => .ok (v :: vs, d || d2) := rfl

/-! ### Claim C2 -/

/-- C2: the claim says every destination that is not a non-nil pointer to a
struct fails with the `InvalidDestination` error.  The code only validates
pointer-ness and nil-ness: a non-nil pointer to a non-struct passes the
check and then panics inside `reflect.Type.NumField`, returning no error at
all — contradicting both the claim and the function's own doc comment
("otherwise Bind returns an error").  Non-pointer and nil destinations do
get the error, and a pointer to a struct never does. -/
theorem bind_nonstruct_pointer_panics :
    Bind src0 (.pointer (.tInt .w64) (.vInt 0)) =
      (.panicked "reflect: NumField of non-struct type", .pointer (.tInt .w64) (.vInt 0)) ∧
    BindResult.panicked "reflect: NumField of non-struct type" ≠ .invalidDest ∧
    Bind src0 .notPointer = (.invalidDest, .notPointer) ∧
    Bind src0 .nilPointer = (.invalidDest, .nilPointer) :=
  ⟨rfl, by decide, rfl, rfl⟩

/-! ### Claim C6 -/

/-- C6: for every leaf (non-struct-like) field, every flag descriptor
generated for it carries `required = true` exactly when the field has no
default-value tag and is not marked omit-empty
(`required := !omitEmpty && def == ""`, flags.go line 64). -/
theorem generated_flag_required_iff (tags : Tags) (ty : GoType) (pfx : String)
    (hleaf : isStructLike ty = false) :
    ∀ fl ∈ genFlagsForField tags ty pfx,
      fl.required = (!omitEmptyOf tags && (tags.dflt == "")) := by
  intro fl hfl
  by_cases he : tags.exported = false
  · rw [genFlagsForField_unexported tags ty pfx he] at hfl
    exact absurd hfl (List.not_mem_nil fl)
  · unfold genFlagsForField at hfl
    simp [he] at hfl
    cases ty
    all_goals try (simp [isStructLike] at hleaf)
    all_goals
      simp [leafFlag] at hfl
      subst hfl
      simp [FlagDef.required, omitEmptyOf]

/-- Witness for C6 at a concrete field: an int field with a default and no
omit-empty marker is not required. -/
theorem generated_flag_required_iff_witness :
    (∀ fl ∈ genFlagsForField ⟨"Count", true, false, "count", "3", "", "", ""⟩ (.tInt .w64) "",
      fl.required = (!omitEmptyOf ⟨"Count", true, false, "count", "3", "", "", ""⟩ &&
        ((⟨"Count", true, false, "count", "3", "", "", ""⟩ : Tags).dflt == ""))) ∧
    genFlagsForField ⟨"Count", true, false, "count", "3", "", "", ""⟩ (.tInt .w64) "" =
      [.int64F "count" [] "" 3 "3" false] :=
  ⟨generated_flag_required_iff _ (.tInt .w64) "" (by decide), by decide⟩

/-! ### Claim C10 -/

/-- Under a successful field loop, every unexported field's slot holds its
zero value. -/
lemma bindFields_unexported_zero (src : FlagSource) (pfx : String) :
    ∀ fs vs d, bindFields src pfx fs = .ok (vs, d) →
      List.Forall₂ (fun (f : GoField) v => f.1.exported = false → v = zeroValue f.2) fs vs := by
  intro fs
  induction fs with
  | nil =>
    intro vs d h
    unfold bindFields at h
    simp at h
    simp [h.1]
  | cons f fs ih =>
    intro vs d h
    obtain ⟨tags, ty⟩ := f
    rw [bindFields_cons] at h
    cases hbf : bindField src pfx tags ty with
    | error e => rw [hbf] at h; exact absurd h (by simp)
    | ok vd =>
      obtain ⟨v, dh⟩ := vd
      rw [hbf] at h
      cases hrest : bindFields src pfx fs with
      | error e => rw [hrest] at h; exact absurd h (by simp)
      | ok vsd =>
        obtain ⟨vs2, d2⟩ := vsd
        rw [hrest] at h
        simp at h
        obtain ⟨hv, -⟩ := h
        subst hv
        refine List.Forall₂.cons ?_ (ih vs2 d2 hrest)
        intro hexp
        rw [bindField_unexported src pfx tags ty hexp] at hbf
        have hz : v = zeroValue ty ∧ dh = false := by simpa using hbf.symm
        exact hz.1

/-- C10: unexported fields are invisible — the generator emits no flag for
them whatever their tags say, and a successful bind leaves every unexported
field at its zero value. -/
theorem unexported_fields_invisible :
    (∀ tags ty pfx, tags.exported = false → genFlagsForField tags ty pfx = []) ∧
    (∀ src pfx fs vs d, bindFields src pfx fs = .ok (vs, d) →
      List.Forall₂ (fun (f : GoField) v => f.1.exported = false → v = zeroValue f.2) fs vs) :=
  ⟨genFlagsForField_unexported, fun src pfx fs vs d h => bindFields_unexported_zero src pfx fs vs d h⟩

/-- Witness for C10 at a concrete struct with one unexported tagged field:
no flag is generated and binding leaves it at zero. -/
theorem unexported_fields_invisible_witness :
    genFlagsForField ⟨"secret", false, false, "s,omitempty", "7", "u", "", ""⟩ (.tInt .w64) "" = [] ∧
    List.Forall₂ (fun (f : GoField) v => f.1.exported = false → v = zeroValue f.2)
      [((⟨"secret", false, false, "s,omitempty", "7", "u", "", ""⟩ : Tags), GoType.tInt .w64)]
      [.vInt 0] :=
  ⟨unexported_fields_invisible.1 _ (.tInt .w64) "" rfl,
   unexported_fields_invisible.2 src0 ""
     [((⟨"secret", false, false, "s,omitempty", "7", "u", "", ""⟩ : Tags), GoType.tInt .w64)]
     [.vInt 0] false rfl⟩

/-! ### Claim C8 -/

/-- C8 counterexample: the claim says a malformed numeric default degrades
to the zero value.  The syntactically valid but out-of-range default
`"9223372036854775808"` (2^63) is a parse failure in Go, yet the generated
flag's default is the clamped boundary `MaxInt64`, not zero. -/
theorem default_degrade_cex :
    genFlagsForField ⟨"N", true, false, "n", "9223372036854775808", "", "", ""⟩ (.tInt .w64) "" =
      [.int64F "n" [] "" 9223372036854775807 "9223372036854775808" false] ∧
    (9223372036854775807 : Int) ≠ 0 :=
  ⟨by decide, by decide⟩

/-- C8 amended: a malformed boolean or numeric default never causes an
error and flag construction always succeeds (generation is total); a
syntactically invalid default degrades to the kind's zero value, while a
syntactically valid but out-of-range integer default degrades to the
clamped boundary value that the discarded-error Go parse returns. -/
theorem default_degrade_amend (tags : Tags) (pfx : String) (w : IntW)
    (hexp : tags.exported = true) :
    genFlagsForField tags .tBool pfx =
      [.boolF (resolvedName pfx tags) (aliasesOf pfx tags) tags.usage
        ((parseBoolGo? tags.dflt).getD false) (!omitEmptyOf tags && (tags.dflt == ""))] ∧
    genFlagsForField tags (.tInt w) pfx =
      [.int64F (resolvedName pfx tags) (aliasesOf pfx tags) tags.usage
        (parseInt64D tags.dflt) tags.dflt (!omitEmptyOf tags && (tags.dflt == ""))] ∧
    genFlagsForField tags (.tUint w) pfx =
      [.uint64F (resolvedName pfx tags) (aliasesOf pfx tags) tags.usage
        (parseUint64D tags.dflt) tags.dflt (!omitEmptyOf tags && (tags.dflt == ""))] ∧
    genFlagsForField tags .tFloat pfx =
      [.float64F (resolvedName pfx tags) (aliasesOf pfx tags) tags.usage
        (parseFloatQD tags.dflt) tags.dflt (!omitEmptyOf tags && (tags.dflt == ""))] ∧
    (intLit? tags.dflt = none → parseInt64D tags.dflt = 0) ∧
    (∀ v, intLit? tags.dflt = some v → 2 ^ 63 - 1 < v → parseInt64D tags.dflt = 2 ^ 63 - 1) ∧
    (∀ v, intLit? tags.dflt = some v → v < -(2 ^ 63) → parseInt64D tags.dflt = -(2 ^ 63)) ∧
    (uintLit? tags.dflt = none → parseUint64D tags.dflt = 0) ∧
    (∀ v, uintLit? tags.dflt = some v → 2 ^ 64 - 1 < v → parseUint64D tags.dflt = 2 ^ 64 - 1) ∧
    (floatLit? tags.dflt = none → parseFloatQD tags.dflt = 0) := by
  refine ⟨?_, ?_, ?_, ?_, ?_, ?_, ?_, ?_, ?_, ?_⟩
  · unfold genFlagsForField
    simp [hexp, leafFlag, aliasesOf, resolvedName, omitEmptyOf]
  · unfold genFlagsForField
    simp [hexp, leafFlag, aliasesOf, resolvedName, omitEmptyOf]
  · unfold genFlagsForField
    simp [hexp, leafFlag, aliasesOf, resolvedName, omitEmptyOf]
  · unfold genFlagsForField
    simp [hexp, leafFlag, aliasesOf, resolvedName, omitEmptyOf]
  · intro h
    unfold parseInt64D
    rw [h]
  · intro v hv hgt
    unfold parseInt64D
    rw [hv]
    norm_num at hgt ⊢
    split_ifs <;> omega
  · intro v hv hlt
    unfold parseInt64D
    rw [hv]
    norm_num at hlt ⊢
    split_ifs <;> omega
  · intro h
    unfold parseUint64D
    rw [h]
  · intro v hv hgt
    unfold parseUint64D
    rw [hv]
    norm_num at hgt ⊢
    intro h
    omega
  · intro h
    unfold parseFloatQD
    rw [h]
    rfl

/-- Witness for the amended C8: a syntactically invalid boolean default
degrades to `false` and the flag is still constructed. -/
theorem default_degrade_amend_witness :
    genFlagsForField ⟨"B", true, false, "b", "notabool", "", "", ""⟩ .tBool "" =
      [.boolF "b" [] "" false false] :=
  (default_degrade_amend ⟨"B", true, false, "b", "notabool", "", "", ""⟩ "" .w64 rfl).1.trans
    (by decide)

/-! ### Claim C5 -/

/-- C5 counterexample: the claim says a sequence-of-sequence field makes
both generation and binding fail with `UnsupportedType`.  Generation has no
error channel at all and emits an ordinary repeated-string flag for a
`[][]string` field, and binding it with an empty repeated value succeeds
silently. -/
theorem nested_sequence_cex :
    FlagsFromStruct (.tStruct fsM) = [.stringSliceF "m" [] "" [] "" true] ∧
    bindStruct src0 (.tStruct fsM) "" = .success (some (.vStruct [.vSlice []])) :=
  ⟨by decide, rfl⟩

/-- C5 amended: binding a sequence-of-sequence field fails with the
unsupported-type ("matrix") error as soon as at least one raw element is
present; generation never fails and emits an ordinary repeated-string
flag for the field. -/
theorem nested_sequence_amend (src : FlagSource) (name : String) (tags : Tags)
    (inner : GoType) (pfx : String) (hexp : tags.exported = true)
    (hr : src.getStrSlice name ≠ []) :
    setFieldValue src name tags (.tSlice (.tSlice inner)) = .error (.matrix tags.goName) ∧
    genFlagsForField tags (.tSlice (.tSlice inner)) pfx =
      [.stringSliceF (resolvedName pfx tags) (aliasesOf pfx tags) tags.usage
        (splitCSV tags.dflt) tags.dflt (!omitEmptyOf tags && (tags.dflt == ""))] := by
  constructor
  · show setSliceField src name tags (.tSlice inner) = .error (.matrix tags.goName)
    unfold setSliceField
    cases hraw : src.getStrSlice name with
    | nil => exact absurd hraw hr
    | cons s rest => simp [hraw, sliceElems, elemValue]
  · unfold genFlagsForField
    simp [hexp, leafFlag, aliasesOf, resolvedName, omitEmptyOf]

/-- Witness for the amended C5 at a concrete `[][]string` field with one
raw element supplied. -/
theorem nested_sequence_amend_witness :
    setFieldValue srcM1 "m" (mkTags "M" "m") (.tSlice (.tSlice .tStr)) = .error (.matrix "M") ∧
    genFlagsForField (mkTags "M" "m") (.tSlice (.tSlice .tStr)) "" =
      [.stringSliceF "m" [] "" [] "" true] := by
  have h := nested_sequence_amend srcM1 "m" (mkTags "M" "m") .tStr "" rfl (by simp [srcM1])
  exact ⟨h.1, h.2.trans (by decide)⟩

/-! ### Claim C3 -/

/-- C3 counterexample: the claim says binding does not descend into or
assign a named nested struct field that declares no prefix.  With a parent
flag `host` and an unprefixed named field `Sub` whose member resolves to the
same name, the bind descends into `Sub` under the unchanged prefix and
assigns it a non-zero value taken from the parent's flag; meanwhile
generation indeed emits only the parent's single flag. -/
theorem unprefixed_nested_cex :
    bindStruct src3 (.tStruct fs3) "" =
      .success (some (.vStruct [.vStr "x", .vStruct [.vStr "x"]])) ∧
    GoValue.vStruct [.vStr "x"] ≠ zeroValue (.tStruct sub3) ∧
    FlagsFromStruct (.tStruct fs3) = [.stringF "host" [] "" "" "" true] := by
  refine ⟨rfl, ?_, by decide⟩
  intro h
  rw [show zeroValue (.tStruct sub3) = .vStruct [.vStr ""] from rfl] at h
  simp at h

/-- C3 amended: a named (non-embedded) nested struct field without a
`cliPrefix` tag contributes no flags at generation time, but binding still
descends into it with the parent's unchanged prefix and assigns the field
whenever the recursive bind assigns any member (member flag names can
therefore collide with parent-namespace flags). -/
theorem unprefixed_nested_amend (tags : Tags) (subfs : List GoField) (pfx : String)
    (src : FlagSource) (hanon : tags.anonymous = false) (hpfx : tags.prefixTag = "")
    (hexp : tags.exported = true) :
    genFlagsForField tags (.tStruct subfs) pfx = [] ∧
    bindField src pfx tags (.tStruct subfs) =
      (match bindFields src pfx subfs with
       | .error e => .error (.wrapSub tags.goName e)
       | .ok (vs, d) =>
         if d then .ok (.vStruct vs, true) else .ok (.vStruct (zeroFields subfs), false)) := by
  constructor
  · unfold genFlagsForField
    simp [hexp, hpfx, hanon]
  · unfold bindField
    simp [hexp, hanon, hpfx]

/-- Witness for the amended C3 at the collision fixture. -/
theorem unprefixed_nested_amend_witness :
    genFlagsForField (mkTags "Sub" "") (.tStruct sub3) "" = [] ∧
    bindField src3 "" (mkTags "Sub" "") (.tStruct sub3) =
      (match bindFields src3 "" sub3 with
       | .error e => .error (.wrapSub "Sub" e)
       | .ok (vs, d) =>
         if d then .ok (.vStruct vs, true) else .ok (.vStruct (zeroFields sub3), false)) :=
  unprefixed_nested_amend (mkTags "Sub" "") sub3 "" src3 rfl rfl rfl

/-! ### Claim C4 -/

/-- Every error a single field binding can produce carries that field's Go
name: a wrapped `setFieldValue` error, a wrapped substruct error, or the
embedded-tag configuration error. -/
lemma bindField_error_forms (src : FlagSource) (pfx : String) (tags : Tags) (ty : GoType)
    (e : BindErr) (h : bindField src pfx tags ty = .error e) :
    (∃ e2, e = .wrapField tags.goName e2) ∨ (∃ e2, e = .wrapSub tags.goName e2) ∨
      e = .embeddedTag tags.goName := by
  by_cases hexp : tags.exported = false
  · rw [bindField_unexported src pfx tags ty hexp] at h
    exact absurd h (by simp)
  · unfold bindField at h
    rw [if_neg hexp] at h
    split at h
    · split at h
      · right; right
        injection h with h2
        exact h2.symm
      · split at h
        · right; left
          injection h with h2
          exact ⟨_, h2.symm⟩
        · split at h <;> simp at h
    · split at h
      · simp at h
      · split at h
        · left
          injection h with h2
          exact ⟨_, h2.symm⟩
        · simp at h

/-- A failing field loop aborts with an error that names one of the
struct's fields. -/
lemma bindFields_error_named (src : FlagSource) (pfx : String) :
    ∀ (fs : List GoField) (e : BindErr), bindFields src pfx fs = .error e →
      ∃ n, n ∈ fs.map (fun f => f.1.goName) ∧
        ((∃ e2, e = .wrapField n e2) ∨ (∃ e2, e = .wrapSub n e2) ∨ e = .embeddedTag n) := by
  intro fs
  induction fs with
  | nil =>
    intro e h
    unfold bindFields at h
    exact absurd h (by simp)
  | cons f fs ih =>
    intro e h
    obtain ⟨tags, ty⟩ := f
    rw [bindFields_cons] at h
    cases hbf : bindField src pfx tags ty with
    | error e2 =>
      rw [hbf] at h
      simp at h
      subst h
      exact ⟨tags.goName, by simp, bindField_error_forms src pfx tags ty e2 hbf⟩
    | ok vd =>
      obtain ⟨v, d⟩ := vd
      rw [hbf] at h
      cases hrest : bindFields src pfx fs with
      | error e2 =>
        rw [hrest] at h
        simp at h
        subst h
        obtain ⟨n, hn, hforms⟩ := ih e2 hrest
        exact ⟨n, by simp at hn ⊢; exact Or.inr hn, hforms⟩
      | ok vsd =>
        rw [hrest] at h
        exact absurd h (by simp)

/-- C4 counterexample: the claim says partial assignments made to the
destination before a parse failure are not rolled back.  With the `a` flag
bound successfully to `"hello"` and the `d` flag malformed, the bind aborts
with a `ParseError` naming field `D`, but the destination still holds its
prior contents (`"old"`): the successful assignment went to an internal
fresh value that is discarded, so nothing the claim predicts persists. -/
theorem parse_error_cex :
    Bind src4 (.pointer (.tStruct fs4) (.vStruct [.vStr "old", .vDur 5])) =
      (.err (.wrapField "D" (.pDuration "bad")),
        .pointer (.tStruct fs4) (.vStruct [.vStr "old", .vDur 5])) ∧
    GoValue.vStr "old" ≠ .vStr "hello" :=
  ⟨rfl, by simp⟩

/-- C4 amended: when any field fails semantic parsing, the whole bind call
aborts with an error naming an offending field of the struct, and the
destination is left entirely unchanged — partial assignments are made to an
internal fresh value that is discarded on error, so nothing is written to
the destination at all. -/
theorem parse_error_amend (src : FlagSource) (fs : List GoField) (cur : GoValue) (e : BindErr)
    (h : bindStruct src (.tStruct fs) "" = .failure e) :
    Bind src (.pointer (.tStruct fs) cur) = (.err e, .pointer (.tStruct fs) cur) ∧
    ∃ n, n ∈ fs.map (fun f => f.1.goName) ∧
      ((∃ e2, e = .wrapField n e2) ∨ (∃ e2, e = .wrapSub n e2) ∨ e = .embeddedTag n) := by
  have hbf : bindFields src "" fs = .error e := by
    simp only [bindStruct] at h
    cases hb : bindFields src "" fs with
    | error e2 =>
      rw [hb] at h
      simp at h
      simp [hb, h]
    | ok vsd =>
      obtain ⟨vs, d⟩ := vsd
      rw [hb] at h
      simp at h
  refine ⟨?_, bindFields_error_named src "" fs e hbf⟩
  simp only [Bind]
  rw [h]

/-- Witness for the amended C4 at the abort fixture. -/
theorem parse_error_amend_witness :
    Bind src4 (.pointer (.tStruct fs4) (.vStruct [.vStr "keep", .vDur 1])) =
      (.err (.wrapField "D" (.pDuration "bad")),
        .pointer (.tStruct fs4) (.vStruct [.vStr "keep", .vDur 1])) ∧
    ∃ n, n ∈ fs4.map (fun f => f.1.goName) ∧
      ((∃ e2, BindErr.wrapField "D" (.pDuration "bad") = .wrapField n e2) ∨
        (∃ e2, BindErr.wrapField "D" (.pDuration "bad") = .wrapSub n e2) ∨
        BindErr.wrapField "D" (.pDuration "bad") = .embeddedTag n) :=
  parse_error_amend src4 fs4 (.vStruct [.vStr "keep", .vDur 1])
    (.wrapField "D" (.pDuration "bad")) rfl

/-! ### Claim C7 -/

/-- A slice element can produce an error exactly when it fails the strict
parse rule of its (scalar) element kind. -/
lemma elemValue_error_iff (tags : Tags) (t : GoType) (s : String) (hT : t.isScalar = true) :
    (∃ e, elemValue tags t s = .error e) ↔ elemFails tags t s = true := by
  cases t
  case tSlice el => simp [GoType.isScalar] at hT
  case tStruct fs => simp [GoType.isScalar] at hT
  case tBool => simp [elemValue, elemFails]
  case tStr => simp [elemValue, elemFails]
  case tInt => cases hp : parseInt64? s <;> simp [elemValue, elemFails, hp]
  case tUint => cases hp : parseUint64? s <;> simp [elemValue, elemFails, hp]
  case tFloat => cases hp : parseFloatQ? s <;> simp [elemValue, elemFails, hp]
  case tDur =>
    by_cases hs : s = ""
    · simp [elemValue, elemFails, hs]
    · cases hp : parseDurationGo? s <;> simp [elemValue, elemFails, hs, hp]
  case tTime =>
    by_cases hs : s = ""
    · simp [elemValue, elemFails, hs]
    · cases hp : parseTimeGo? (if tags.timeLayout = "" then rfc3339Layout else tags.timeLayout) s <;>
        simp [elemValue, elemFails, hs, hp]
  case tUuid =>
    by_cases hs : s = ""
    · simp [elemValue, elemFails, hs]
    · cases hp : parseUUIDGo? s <;> simp [elemValue, elemFails, hs, hp]

/-- On success the element loop keeps exactly the non-skipped parses, in
input order. -/
lemma sliceElems_ok_keep (tags : Tags) (t : GoType) :
    ∀ (raw : List String) (vs : List GoValue), sliceElems tags t raw = .ok vs →
      vs = raw.filterMap (elemKeep tags t) := by
  intro raw
  induction raw with
  | nil =>
    intro vs h
    unfold sliceElems at h
    simp at h
    simp [← h]
  | cons s rest ih =>
    intro vs h
    unfold sliceElems at h
    cases hev : elemValue tags t s with
    | error e => rw [hev] at h; simp at h
    | ok o =>
      rw [hev] at h
      cases o with
      | none =>
        rw [List.filterMap_cons]
        simp only [elemKeep, hev]
        exact ih vs h
      | some v =>
        cases hrest : sliceElems tags t rest with
        | error e => rw [hrest] at h; simp at h
        | ok vs2 =>
          rw [hrest] at h
          simp at h
          rw [List.filterMap_cons]
          simp only [elemKeep, hev]
          rw [← h]
          simp [ih vs2 hrest]

/-- The element loop fails exactly when some raw element fails its kind's
strict parse rule. -/
lemma sliceElems_error_iff (tags : Tags) (t : GoType) (hT : t.isScalar = true) :
    ∀ raw : List String, ((∃ e, sliceElems tags t raw = .error e) ↔
      ∃ s ∈ raw, elemFails tags t s = true) := by
  intro raw
  induction raw with
  | nil => unfold sliceElems; simp
  | cons s rest ih =>
    unfold sliceElems
    cases hev : elemValue tags t s with
    | error e =>
      simp only [hev]
      constructor
      · intro _
        exact ⟨s, by simp, (elemValue_error_iff tags t s hT).mp ⟨e, hev⟩⟩
      · intro _
        exact ⟨e, rfl⟩
    | ok o =>
      have hnf : elemFails tags t s = false := by
        rcases hef : elemFails tags t s
        · rfl
        · obtain ⟨e, he⟩ := (elemValue_error_iff tags t s hT).mpr hef
          rw [hev] at he
          simp at he
      cases o with
      | none =>
        simp only [hev]
        rw [ih]
        constructor
        · rintro ⟨s2, hs2, hf⟩
          exact ⟨s2, by simp [hs2], hf⟩
        · rintro ⟨s2, hs2, hf⟩
          simp at hs2
          cases hs2 with
          | inl heq => subst heq; rw [hnf] at hf; simp at hf
          | inr h2 => exact ⟨s2, h2, hf⟩
      | some v =>
        simp only [hev]
        constructor
        · rintro ⟨e, he⟩
          cases hrest : sliceElems tags t rest with
          | error e2 =>
            obtain ⟨s2, hs2, hf⟩ := ih.mp ⟨e2, hrest⟩
            exact ⟨s2, by simp [hs2], hf⟩
          | ok vs2 => rw [hrest] at he; simp at he
        · rintro ⟨s2, hs2, hf⟩
          simp at hs2
          cases hs2 with
          | inl heq => subst heq; rw [hnf] at hf; simp at hf
          | inr h2 =>
            obtain ⟨e2, he2⟩ := ih.mpr ⟨s2, h2, hf⟩
            rw [he2]
            exact ⟨e2, rfl⟩

/-- C7 counterexample: the claim says any sequence element that fails to
parse makes the whole bind fail.  A malformed boolean element does not:
the parse error is discarded and `false` is appended, so the bind of a
`[]bool` field from the single element `"xyz"` succeeds. -/
theorem sequence_element_cex :
    setFieldValue srcB "b" (mkTags "B" "b") (.tSlice .tBool) = .ok (.vSlice [.vBool false]) ∧
    parseBoolGo? "xyz" = none ∧ "xyz" ∈ srcB.getStrSlice "b" :=
  ⟨rfl, rfl, by simp [srcB]⟩

/-- C7 amended: for a sequence-of(T) field with scalar T, elements are
processed in input order and the bind fails exactly when some element fails
the strict parse rule of T (`elemFails`, which includes the float64
overflow range error) — where boolean and string elements never fail (a
malformed boolean is appended as `false`), and empty
duration/timestamp/identifier strings do not fail but are skipped rather
than appended; on success the resulting slice holds exactly the kept
elements in order (`elemKeep`, which stores parsed integer and unsigned
elements through Go's conversion to the element's width). -/
theorem sequence_element_amend (src : FlagSource) (name : String) (tags : Tags) (T : GoType)
    (hT : T.isScalar = true) :
    ((∃ e, setFieldValue src name tags (.tSlice T) = .error e) ↔
      ∃ s ∈ src.getStrSlice name, elemFails tags T s = true) ∧
    (∀ vs, setFieldValue src name tags (.tSlice T) = .ok (.vSlice vs) →
      vs = (src.getStrSlice name).filterMap (elemKeep tags T)) := by
  show ((∃ e, setSliceField src name tags T = .error e) ↔ _) ∧
    (∀ vs, setSliceField src name tags T = .ok (.vSlice vs) → _)
  unfold setSliceField
  generalize src.getStrSlice name = raw
  cases raw with
  | nil => simp
  | cons s rest =>
    rw [if_neg (by simp)]
    constructor
    · constructor
      · rintro ⟨e, he⟩
        cases hse : sliceElems tags T (s :: rest) with
        | error e2 => exact (sliceElems_error_iff tags T hT (s :: rest)).mp ⟨e2, hse⟩
        | ok vs => rw [hse] at he; simp at he
      · intro hex
        obtain ⟨e2, he2⟩ := (sliceElems_error_iff tags T hT (s :: rest)).mpr hex
        rw [he2]
        exact ⟨e2, rfl⟩
    · intro vs h
      cases hse : sliceElems tags T (s :: rest) with
      | error e2 => rw [hse] at h; simp at h
      | ok vs2 =>
        rw [hse] at h
        simp at h
        rw [← h]
        exact sliceElems_ok_keep tags T (s :: rest) vs2 hse

/-- Witness for the amended C7, instantiated at the boolean element kind
and the lenient-boolean fixture. -/
theorem sequence_element_amend_witness :
    (((∃ e, setFieldValue srcB "b" (mkTags "B" "b") (.tSlice .tBool) = .error e) ↔
      ∃ s ∈ srcB.getStrSlice "b", elemFails (mkTags "B" "b") .tBool s = true) ∧
    (∀ vs, setFieldValue srcB "b" (mkTags "B" "b") (.tSlice .tBool) = .ok (.vSlice vs) →
      vs = (srcB.getStrSlice "b").filterMap (elemKeep (mkTags "B" "b") .tBool))) :=
  sequence_element_amend srcB "b" (mkTags "B" "b") .tBool (by decide)

/-! ### Claim C9 -/

/-- Injectivity of a successful pair result, oriented for rewriting. -/
lemma ok_pair_inj {α β E : Type} {a v : α} {b d : β}
    (h : (Except.ok (a, b) : Except E (α × β)) = .ok (v, d)) : v = a ∧ d = b := by
  injection h with h2
  injection h2 with hv hd
  exact ⟨hv.symm, hd.symm⟩

/-- A struct-like type is a `tStruct`. -/
lemma isStructLike_eq (ty : GoType) (h : isStructLike ty = true) :
    ∃ subfs, ty = .tStruct subfs := by
  cases ty
  all_goals first
  | exact ⟨_, rfl⟩
  | simp [isStructLike] at h

/-- A skipped leaf field binds to its zero value with no `defined`
contribution. -/
lemma bindField_ok_skipped_leaf (src : FlagSource) (pfx : String) (tags : Tags) (ty : GoType)
    (v : GoValue) (d : Bool) (hleaf : isStructLike ty = false)
    (h : bindField src pfx tags ty = .ok (v, d))
    (hs : fieldSkipped src pfx (tags, ty) = true) : v = zeroValue ty ∧ d = false := by
  by_cases hexp : tags.exported = false
  · rw [bindField_unexported src pfx tags ty hexp] at h
    exact ok_pair_inj h
  · cases ty
    all_goals try (simp [isStructLike] at hleaf)
    all_goals
      simp only [bindField, fieldSkipped, if_neg hexp] at h hs
      simp at hs
      rw [if_pos (And.intro hs.1 hs.2)] at h
      exact ok_pair_inj h

/-- A skipped struct-like field binds to its zero value with no `defined`
contribution. -/
lemma bindField_ok_skipped_struct (src : FlagSource) (pfx : String) (tags : Tags)
    (subfs : List GoField) (v : GoValue) (d : Bool)
    (h : bindField src pfx tags (.tStruct subfs) = .ok (v, d))
    (hs : fieldSkipped src pfx (tags, .tStruct subfs) = true) :
    v = zeroValue (.tStruct subfs) ∧ d = false := by
  by_cases hexp : tags.exported = false
  · rw [bindField_unexported src pfx tags (.tStruct subfs) hexp] at h
    exact ok_pair_inj h
  · simp only [bindField, if_neg hexp] at h
    simp only [fieldSkipped, if_neg hexp] at hs
    cases hbf : bindFields src (if tags.anonymous = true then pfx else pfx ++ tags.prefixTag) subfs with
    | error e =>
      rw [hbf] at h hs
      split at h
      · simp at h
      · simp at h
    | ok vsd =>
      obtain ⟨vs, dd⟩ := vsd
      rw [hbf] at h hs
      cases dd
      · split at h
        · simp at h
        · exact ok_pair_inj h
      · simp at hs

/-- Under a successful field loop, every skipped field's slot holds its
zero value. -/
lemma bindFields_skipped_zero (src : FlagSource) (pfx : String) :
    ∀ fs vs d, bindFields src pfx fs = .ok (vs, d) →
      List.Forall₂ (fun (f : GoField) v => fieldSkipped src pfx f = true → v = zeroValue f.2)
        fs vs := by
  intro fs
  induction fs with
  | nil =>
    intro vs d h
    unfold bindFields at h
    simp at h
    simp [h.1]
  | cons f fs ih =>
    intro vs d h
    obtain ⟨tags, ty⟩ := f
    rw [bindFields_cons] at h
    cases hbf : bindField src pfx tags ty with
    | error e => rw [hbf] at h; simp at h
    | ok vd =>
      obtain ⟨v, dh⟩ := vd
      rw [hbf] at h
      cases hrest : bindFields src pfx fs with
      | error e => rw [hrest] at h; simp at h
      | ok vsd =>
        obtain ⟨vs2, d2⟩ := vsd
        rw [hrest] at h
        simp at h
        obtain ⟨hv, -⟩ := h
        subst hv
        refine List.Forall₂.cons ?_ (ih vs2 d2 hrest)
        intro hsk
        cases hstr : isStructLike ty with
        | false => exact (bindField_ok_skipped_leaf src pfx tags ty v dh hstr hbf hsk).1
        | true =>
          obtain ⟨subfs, rfl⟩ := isStructLike_eq ty hstr
          exact (bindField_ok_skipped_struct src pfx tags subfs v dh hbf hsk).1

/-- C9: `Bind` assigns into an internally allocated fresh value; on success
it either wholly replaces the destination with that value when at least one
field was assigned — so every skipped field (unset omit-empty flag, nested
structure with no assignments, unexported field) ends at its zero value
regardless of the destination's prior contents — or leaves the destination
entirely unchanged when no field was assigned at all. -/
theorem bind_replaces_or_preserves (src : FlagSource) (fs : List GoField) (cur : GoValue) :
    (bindStruct src (.tStruct fs) "" = .success none →
      Bind src (.pointer (.tStruct fs) cur) = (.ok, .pointer (.tStruct fs) cur)) ∧
    (∀ v, bindStruct src (.tStruct fs) "" = .success (some v) →
      Bind src (.pointer (.tStruct fs) cur) = (.ok, .pointer (.tStruct fs) v) ∧
      ∃ vs, v = .vStruct vs ∧
        List.Forall₂ (fun (f : GoField) w => fieldSkipped src "" f = true → w = zeroValue f.2)
          fs vs) := by
  constructor
  · intro h
    simp only [Bind]
    rw [h]
  · intro v h
    refine ⟨by simp only [Bind]; rw [h], ?_⟩
    simp only [bindStruct] at h
    cases hb : bindFields src "" fs with
    | error e => rw [hb] at h; simp at h
    | ok vsd =>
      obtain ⟨vs, d⟩ := vsd
      rw [hb] at h
      cases d
      · simp at h
      · simp at h
        exact ⟨vs, h.symm, bindFields_skipped_zero src "" fs vs true hb⟩

/-- Witness for C9 at the skip fixture: the unset omit-empty field ends at
zero and the prior destination contents are discarded. -/
theorem bind_replaces_or_preserves_witness :
    Bind src9 (.pointer (.tStruct fs9) (.vStruct [.vStr "old", .vInt 5])) =
      (.ok, .pointer (.tStruct fs9) (.vStruct [.vStr "x", .vInt 0])) :=
  ((bind_replaces_or_preserves src9 fs9 (.vStruct [.vStr "old", .vInt 5])).2
    (.vStruct [.vStr "x", .vInt 0]) rfl).1

/-! ### Claim C1 -/

/-- For an exported scalar field the generator emits exactly one flag, and
its name is the field's resolved name — the same name the binder reads. -/
lemma genFlagsForField_scalar_name (tags : Tags) (ty : GoType) (pfx : String)
    (hs : ty.isScalar = true) (he : tags.exported = true) :
    (genFlagsForField tags ty pfx).map FlagDef.name = [resolvedName pfx tags] := by
  cases ty
  all_goals try (simp [GoType.isScalar] at hs)
  all_goals simp [genFlagsForField, he, leafFlag, FlagDef.name]

/-- The flags of a member field are among the flags of the struct. -/
lemma genFlagsForStruct_mem (pfx : String) :
    ∀ (fs : List GoField) (f : GoField), f ∈ fs →
      ∀ fl ∈ genFlagsForField f.1 f.2 pfx, fl ∈ genFlagsForStruct fs pfx := by
  intro fs
  induction fs with
  | nil => intro f hf; simp at hf
  | cons g fs ih =>
    intro f hf fl hfl
    obtain ⟨tags, ty⟩ := g
    rw [show genFlagsForStruct ((tags, ty) :: fs) pfx =
      genFlagsForField tags ty pfx ++ genFlagsForStruct fs pfx from rfl]
    rcases List.mem_cons.mp hf with heq | hmem
    · subst heq
      exact List.mem_append_left _ hfl
    · exact List.mem_append_right _ (ih f hmem fl hfl)

/-- When an exported scalar field's flag is set and the supplied value
denotes a value of the field's kind, the binder assigns exactly that
value. -/
lemma bindField_scalar (src : FlagSource) (pfx : String) (tags : Tags) (ty : GoType)
    (v : GoValue) (hs : ty.isScalar = true) (he : tags.exported = true)
    (hset : src.isSet (resolvedName pfx tags) = true)
    (hv : storedValue src pfx (tags, ty) = some v) :
    bindField src pfx tags ty = .ok (v, true) := by
  have hexp : ¬ tags.exported = false := by simp [he]
  have hcond : ¬ (src.isSet (resolvedName pfx tags) = false ∧ omitEmptyOf tags = true) := by
    intro hc
    rw [hset] at hc
    simp at hc
  cases ty
  all_goals try (simp [GoType.isScalar] at hs)
  case tBool =>
    simp only [storedValue] at hv
    injection hv with hv2
    subst hv2
    simp [bindField, if_neg hexp, if_neg hcond, setFieldValue]
  case tInt =>
    simp only [storedValue] at hv
    injection hv with hv2
    subst hv2
    simp [bindField, if_neg hexp, if_neg hcond, setFieldValue]
  case tUint =>
    simp only [storedValue] at hv
    injection hv with hv2
    subst hv2
    simp [bindField, if_neg hexp, if_neg hcond, setFieldValue]
  case tFloat =>
    simp only [storedValue] at hv
    injection hv with hv2
    subst hv2
    simp [bindField, if_neg hexp, if_neg hcond, setFieldValue]
  case tStr =>
    simp only [storedValue] at hv
    injection hv with hv2
    subst hv2
    simp [bindField, if_neg hexp, if_neg hcond, setFieldValue]
  case tDur =>
    simp only [storedValue] at hv
    simp only [bindField, if_neg hexp, if_neg hcond, setFieldValue]
    by_cases hs0 : src.getStr (resolvedName pfx tags) = ""
    · rw [if_pos hs0] at hv
      injection hv with hv2
      subst hv2
      rw [if_pos hs0]
    · rw [if_neg hs0] at hv
      rw [if_neg hs0]
      cases hp : parseDurationGo? (src.getStr (resolvedName pfx tags)) with
      | none => rw [hp] at hv; simp at hv
      | some dur =>
        rw [hp] at hv
        simp at hv
        subst hv
        rfl
  case tTime =>
    simp only [storedValue] at hv
    simp only [bindField, if_neg hexp, if_neg hcond, setFieldValue]
    by_cases hs0 : src.getStr (resolvedName pfx tags) = ""
    · rw [if_pos hs0] at hv
      injection hv with hv2
      subst hv2
      rw [if_pos hs0]
    · rw [if_neg hs0] at hv
      rw [if_neg hs0]
      cases hp : parseTimeGo? (if tags.timeLayout = "" then rfc3339Layout else tags.timeLayout)
          (src.getStr (resolvedName pfx tags)) with
      | none => rw [hp] at hv; simp at hv
      | some t =>
        rw [hp] at hv
        simp at hv
        subst hv
        rfl
  case tUuid =>
    simp only [storedValue] at hv
    simp only [bindField, if_neg hexp, if_neg hcond, setFieldValue]
    by_cases hs0 : src.getStr (resolvedName pfx tags) = ""
    · rw [if_pos hs0] at hv
      injection hv with hv2
      subst hv2
      rw [if_pos hs0]
    · rw [if_neg hs0] at hv
      rw [if_neg hs0]
      cases hp : parseUUIDGo? (src.getStr (resolvedName pfx tags)) with
      | none => rw [hp] at hv; simp at hv
      | some u =>
        rw [hp] at hv
        simp at hv
        subst hv
        rfl

/-- The field loop over exported, scalar, fully set and well-formed fields
assigns every field its supplied value in order, with `defined` exactly
when the struct has a field. -/
lemma bindFields_scalar (src : FlagSource) (pfx : String) :
    ∀ (fs : List GoField) (ws : List GoValue),
      (∀ f ∈ fs, f.2.isScalar = true ∧ f.1.exported = true) →
      (∀ f ∈ fs, src.isSet (resolvedName pfx f.1) = true) →
      storedValues src pfx fs = some ws →
      bindFields src pfx fs = .ok (ws, !fs.isEmpty) := by
  intro fs
  induction fs with
  | nil =>
    intro ws _ _ hm
    unfold storedValues at hm
    injection hm with hm2
    subst hm2
    rfl
  | cons f fs ih =>
    intro ws hsc hset hm
    obtain ⟨tags, ty⟩ := f
    unfold storedValues at hm
    cases hv : storedValue src pfx (tags, ty) with
    | none => rw [hv] at hm; simp at hm
    | some v =>
    cases hws2 : storedValues src pfx fs with
    | none => rw [hv, hws2] at hm; simp at hm
    | some ws2 =>
    rw [hv, hws2] at hm
    injection hm with hm2
    subst hm2
    have hmem : ((tags, ty) : GoField) ∈ (tags, ty) :: fs := by simp
    have hb := bindField_scalar src pfx tags ty v (hsc _ hmem).1 (hsc _ hmem).2
      (hset _ hmem) hv
    rw [bindFields_cons, hb,
      ih ws2 (fun g hg => hsc g (by simp [hg])) (fun g hg => hset g (by simp [hg])) hws2]
    simp

/-- C1 counterexample: the claim says binding reproduces exactly the values
supplied for every all-scalar struct.  An `int8` field whose `Int64Flag`
accessor supplies 300 binds 44: `castAndSetInt`'s `SetInt` store performs
Go's conversion to the field's width, a two's-complement wrap. -/
theorem scalar_round_trip_cex :
    srcW8.getInt "n" = 300 ∧
    Bind srcW8 (.pointer (.tStruct fsW8) (zeroValue (.tStruct fsW8))) =
      (.ok, .pointer (.tStruct fsW8) (.vStruct [.vInt 44])) ∧
    (44 : Int) ≠ 300 :=
  ⟨rfl, rfl, by decide⟩

/-- C1 amended: round-trip through the stored values.  For every struct
whose fields are all exported and scalar, generating flags with
`FlagsFromStruct`, supplying a value for every generated flag in the flag
source (with the string-carried duration/timestamp/identifier values
denoting well-formed values), and binding into a fresh destination yields
each supplied value converted to its field's width: the identity for
bool/string/duration/timestamp/identifier/float64 fields and for 64-bit
integer fields, and a two's-complement wrap for narrower integer fields
(`storedValue`); so the original round-trip holds exactly when every
integer field is 64-bit wide. -/
theorem scalar_round_trip (src : FlagSource) (fs : List GoField) (ws : List GoValue)
    (hscalar : ∀ f ∈ fs, f.2.isScalar = true ∧ f.1.exported = true)
    (hset : ∀ fl ∈ FlagsFromStruct (.tStruct fs), src.isSet fl.name = true)
    (hsup : storedValues src "" fs = some ws)
    (hne : fs ≠ []) :
    Bind src (.pointer (.tStruct fs) (zeroValue (.tStruct fs))) =
      (.ok, .pointer (.tStruct fs) (.vStruct ws)) := by
  have hset2 : ∀ f ∈ fs, src.isSet (resolvedName "" f.1) = true := by
    intro f hf
    have hsc := hscalar f hf
    have hnm := genFlagsForField_scalar_name f.1 f.2 "" hsc.1 hsc.2
    have hx : ∃ fl ∈ genFlagsForField f.1 f.2 "", fl.name = resolvedName "" f.1 := by
      cases hg : genFlagsForField f.1 f.2 "" with
      | nil => rw [hg] at hnm; simp at hnm
      | cons fl rest =>
        rw [hg] at hnm
        simp at hnm
        exact ⟨fl, by simp, hnm.1⟩
    obtain ⟨fl, hmem, hname⟩ := hx
    have hmem2 : fl ∈ FlagsFromStruct (.tStruct fs) :=
      genFlagsForStruct_mem "" fs f hf fl hmem
    have hres := hset fl hmem2
    rw [hname] at hres
    exact hres
  have hb := bindFields_scalar src "" fs ws hscalar hset2 hsup
  have hie : fs.isEmpty = false := by
    cases fs
    · exact absurd rfl hne
    · rfl
  simp only [Bind, bindStruct]
  rw [hb, hie]
  rfl

/-- Witness for C1 at a struct with one field of every scalar kind, fully
populated from `srcRT`. -/
theorem scalar_round_trip_witness :
    Bind srcRT (.pointer (.tStruct fsRT) (zeroValue (.tStruct fsRT))) =
      (.ok, .pointer (.tStruct fsRT) (.vStruct wsRT)) :=
  scalar_round_trip srcRT fsRT wsRT (by decide) (by decide) rfl (by simp [fsRT])

end Clibind
